import Mathlib

/-!
Verification of the ELI5 explanation pipeline (`tools.py`, `eli5_agent.py`).

The development shallowly embeds the Python source: pure string processing
becomes executable Lean functions on `List Char` / `String`, the disk cache
becomes an explicit key-to-file map threaded through the fetch functions,
and the outcome of each external subprocess / generative call is an explicit
parameter (one outcome value per attempt), so that every claim about the
orchestration logic can be settled for *every* behaviour of the external
collaborators.
-/

/-! ## Python string primitives

Helpers mirroring the exact Python string operations used by `tools.py`:
`str.strip`, `str.startswith`, the `in` substring test, `str.lower`,
and the character class `\s` of the `re` module.
-/

/-- Python's `\s` character class (and `str.strip` default set), restricted to
the ASCII range: space, tab, newline, carriage return, vertical tab, form feed. -/
def pyIsSpace (c : Char) : Bool :=
  c = ' ' || c = '\t' || c = '\n' || c = '\r' || c = '\x0b' || c = '\x0c'

/-- Python's `\w` character class (ASCII range): letters, digits, underscore. -/
def isWordChar (c : Char) : Bool :=
  c.isAlphanum || c = '_'

/-- Remove trailing whitespace, as the second half of Python's `str.strip()`. -/
def stripTrail (l : List Char) : List Char :=
  (l.reverse.dropWhile pyIsSpace).reverse

/-- Python's `str.strip()` on a character list: drop leading and trailing
whitespace. -/
def pyStrip (l : List Char) : List Char :=
  stripTrail (l.dropWhile pyIsSpace)

/-- Python's `str.strip()` on a `String`. -/
def pyStripStr (s : String) : String :=
  (pyStrip s.toList).asString

/-- Python's `str.startswith(p)`. -/
def pyStartsWith (p s : String) : Bool :=
  p.toList.isPrefixOf s.toList

/-- Does `p` occur as a contiguous sublist of `l`? -/
def listHasInfix (p : List Char) : List Char → Bool
  | [] => p.isPrefixOf []
  | c :: cs => p.isPrefixOf (c :: cs) || listHasInfix p cs

/-- Python's substring test `p in s`. -/
def pyContains (p s : String) : Bool :=
  listHasInfix p.toList s.toList

/-- Case-insensitive prefix test: the pattern `p` is given in lowercase and each
text character is lowered before comparison, modelling a fixed pattern compiled
with `re.IGNORECASE`. -/
def ciPre : List Char → List Char → Bool
  | [], _ => true
  | _ :: _, [] => false
  | p :: ps, c :: cs => p = c.toLower && ciPre ps cs

/-! ## Text Preprocessor (`tools.preprocess_text`)

`preprocess_text` applies seven `re.sub` substitutions in order.  Each fixed
pattern is embedded as a left-to-right scan over the character list that
reproduces Python's leftmost, non-overlapping match semantics for that
pattern.  Each scanner carries a fuel argument (initialised with the list
length, an upper bound on the number of scan positions) to make the
recursion structural.
-/

/-- Scanner for `re.sub(r'\[\d+\]', '', text)`: at a `[`, a non-empty digit run
followed by `]` is removed; otherwise the character is kept and the scan moves
one position right, exactly as Python's `re` advances on a failed match. -/
def removeCitesF : Nat → List Char → List Char
  | 0, l => l
  | _ + 1, [] => []
  | n + 1, c :: cs =>
    if c = '[' then
      match cs.takeWhile Char.isDigit, cs.dropWhile Char.isDigit with
      | _ :: _, ']' :: rest => removeCitesF n rest
      | _, _ => '[' :: removeCitesF n cs
    else c :: removeCitesF n cs

/-- Removal of citation markers `[1]`, `[23]`, … (`tools.py` line 199). -/
def removeCites (l : List Char) : List Char :=
  removeCitesF l.length l

/-- Scanner for `re.sub(r'\[edit\]', '', text, flags=re.IGNORECASE)`. -/
def removeEditF : Nat → List Char → List Char
  | 0, l => l
  | _ + 1, [] => []
  | n + 1, c :: cs =>
    if c = '[' && ciPre "edit]".toList cs then removeEditF n (cs.drop 5)
    else c :: removeEditF n cs

/-- Removal of `[edit]` links (`tools.py` line 200). -/
def removeEdit (l : List Char) : List Char :=
  removeEditF l.length l

/-- Attempt to match `\s*\(listen\)\s*` (IGNORECASE) at the head of the list;
on success return the remainder after the match.  `\s*` is greedy and the
following literal `(` is not whitespace, so the match consumes the entire
leading whitespace run. -/
def tryListen (l : List Char) : Option (List Char) :=
  match l.dropWhile pyIsSpace with
  | '(' :: rest =>
    if ciPre "listen)".toList rest then some ((rest.drop 7).dropWhile pyIsSpace)
    else none
  | _ => none

/-- Scanner for `re.sub(r'\s*\(listen\)\s*', ' ', text, flags=re.IGNORECASE)`. -/
def removeListenF : Nat → List Char → List Char
  | 0, l => l
  | _ + 1, [] => []
  | n + 1, c :: cs =>
    match tryListen (c :: cs) with
    | some rest => ' ' :: removeListenF n rest
    | none => c :: removeListenF n cs

/-- Removal of `(listen)` audio annotations (`tools.py` line 201). -/
def removeListen (l : List Char) : List Char :=
  removeListenF l.length l

/-- Word-boundary test of Python's `\b` between a previous character and the
current one: exactly one of the two sides is a word character. -/
def wordBoundary (prev c : Char) : Bool :=
  isWordChar prev != isWordChar c

/-- Does `\d+:\d+` match a prefix of `l`? -/
def digitsColon (l : List Char) : Bool :=
  match l.takeWhile Char.isDigit, l.dropWhile Char.isDigit with
  | _ :: _, ':' :: d :: _ => d.isDigit
  | _, _ => false

/-- Does `[\w\s]*\d+:\d+` match a prefix of `l`?  The scan admits every split
point of the word-or-space run before the digits, covering all backtracking
choices of the Python engine. -/
def wsDigitsColon : List Char → Bool
  | [] => false
  | c :: cs =>
    (c.isDigit && digitsColon (c :: cs))
      || ((isWordChar c || pyIsSpace c) && wsDigitsColon cs)

/-- Does one alternative of the group
`(?:e\.g\.|i\.e\.|etc\.|cit\.(?:\s*needed)?|citation needed|[\w\s]*\d+:\d+)`
match a prefix of `l` (IGNORECASE)?  For `cit\.(?:\s*needed)?` the optional
tail is irrelevant to match existence, so `cit.` alone is tested. -/
def citeAlternative (l : List Char) : Bool :=
  ciPre "e.g.".toList l || ciPre "i.e.".toList l || ciPre "etc.".toList l
    || ciPre "citation needed".toList l || ciPre "cit.".toList l
    || wsDigitsColon l

/-- Does `\b(?:…citation alternatives…)` match anywhere in `l`, where `prev` is
the character immediately before `l` (the opening parenthesis when scanning a
parenthetical body)? -/
def citeContains (prev : Char) : List Char → Bool
  | [] => false
  | c :: cs => (wordBoundary prev c && citeAlternative (c :: cs)) || citeContains c cs

/-- Attempt to match
`\s*\([^)]*\b(?:e\.g\.|i\.e\.|etc\.|cit\.(?:\s*needed)?|citation needed|[\w\s]*\d+:\d+)[^)]*\)\s*`
at the head of the list; on success return the remainder.  Both `[^)]*` pieces
exclude `)`, so the closing parenthesis of a match is the first `)` after the
opening one, and the body between them must contain a boundary-anchored
citation keyword. -/
def tryCiteParen (l : List Char) : Option (List Char) :=
  let rest := l.dropWhile pyIsSpace
  match rest with
  | '(' :: body =>
    match body.dropWhile (fun c => !(c = ')')) with
    | ')' :: tail =>
      if citeContains '(' (body.takeWhile (fun c => !(c = ')'))) then
        some (tail.dropWhile pyIsSpace)
      else none
    | _ => none
  | _ => none

/-- Scanner for the citation-parenthetical substitution (`tools.py` line 204). -/
def removeCiteParenF : Nat → List Char → List Char
  | 0, l => l
  | _ + 1, [] => []
  | n + 1, c :: cs =>
    match tryCiteParen (c :: cs) with
    | some rest => ' ' :: removeCiteParenF n rest
    | none => c :: removeCiteParenF n cs

/-- Removal of citation-like parenthetical notes (`tools.py` line 204). -/
def removeCiteParen (l : List Char) : List Char :=
  removeCiteParenF l.length l

/-- Attempt to match `\(\s*\)` at the head of the list. -/
def tryEmptyParen (l : List Char) : Option (List Char) :=
  match l with
  | '(' :: body =>
    match body.dropWhile pyIsSpace with
    | ')' :: tail => some tail
    | _ => none
  | _ => none

/-- Scanner for `re.sub(r'\(\s*\)', ' ', text)` (`tools.py` line 207). -/
def removeEmptyParenF : Nat → List Char → List Char
  | 0, l => l
  | _ + 1, [] => []
  | n + 1, c :: cs =>
    match tryEmptyParen (c :: cs) with
    | some rest => ' ' :: removeEmptyParenF n rest
    | none => c :: removeEmptyParenF n cs

/-- Removal of empty parentheses (`tools.py` line 207). -/
def removeEmptyParen (l : List Char) : List Char :=
  removeEmptyParenF l.length l

/-- The substitution `re.sub(r'^\[(?:Simple )?Wikipedia\]\s*', '', text)`:
anchored at the start (no MULTILINE), so at most one replacement, with the
optional group tried greedily first. -/
def stripSourceTag (l : List Char) : List Char :=
  if "[Simple Wikipedia]".toList.isPrefixOf l then
    (l.drop 18).dropWhile pyIsSpace
  else if "[Wikipedia]".toList.isPrefixOf l then
    (l.drop 11).dropWhile pyIsSpace
  else l

/-- Map a whitespace character to a plain space, other characters unchanged. -/
def normWsChar (c : Char) : Char :=
  if pyIsSpace c then ' ' else c

/-- The substitution `re.sub(r'\s+', ' ', text)`: every maximal whitespace run
is replaced by a single space. -/
def collapseWs : List Char → List Char
  | [] => []
  | c :: cs =>
    match cs with
    | [] => [normWsChar c]
    | d :: _ =>
      if pyIsSpace c && pyIsSpace d then collapseWs cs
      else normWsChar c :: collapseWs cs

/-- The full substitution pipeline of `preprocess_text` applied to the
character list of a non-empty input, in source order: citation numbers,
`[edit]` links, `(listen)` annotations, citation-like parentheticals, empty
parentheses, the source prefix label, then whitespace normalisation with a
final strip. -/
def cleanPipeline (l : List Char) : List Char :=
  pyStrip (collapseWs (stripSourceTag (removeEmptyParen (removeCiteParen
    (removeListen (removeEdit (removeCites l)))))))

/-- Embedding of `tools.preprocess_text` (lines 184–219): the empty input is
rejected up front, the substitution pipeline is applied, and a result that
became empty is reported as an error string, exactly as in the source. -/
def preprocess_text (raw : String) : String :=
  if raw = "" then "Error: No text provided for preprocessing"
  else
    let t := (cleanPipeline raw.toList).asString
    if t = "" then "Error: Text became empty after preprocessing" else t

/-! ## Cache and Source Fetcher (`tools.py` lines 43–139)

The on-disk cache (`~/.eli5_cache/{key}.json`) is modelled as a map from key
to the state of the corresponding file: absent, unreadable-or-malformed, or a
readable JSON record holding a `content` string.  Each invocation of the
external `wikipediaapi` subprocess is modelled by an `AttemptOutcome`; the
fetch functions take one outcome per attempt index and additionally report
the number of subprocess invocations performed, so that cache-hit behaviour
("the provider is not invoked again") is observable.
-/

/-- State of one cache file on disk. -/
inductive CacheFile where
  /-- The cache file does not exist. -/
  | absent
  /-- The file exists but opening it or parsing its JSON raises (the
  `except: pass` path of `_get_cached_content`). -/
  | corrupt
  /-- The file holds a readable record `{'content': content}`; a record whose
  `content` key is missing is modelled as `stored ""`, the value
  `data.get('content', '')` produces for it. -/
  | stored (content : String)
deriving DecidableEq

/-- The cache directory: a map from cache key to file state. -/
def CacheMap : Type := String → CacheFile

/-- The cache directory with no files in it. -/
def emptyCache : CacheMap := fun _ => .absent

/-- Embedding of `tools._get_cached_content` (lines 49–59): a missing,
unreadable or malformed file yields the empty string (the function never
raises — every exception is swallowed by `except: pass`). -/
def get_cached_content (cache : CacheMap) (key : String) : String :=
  match cache key with
  | .stored c => c
  | _ => ""

/-- Embedding of `tools._cache_content` (lines 61–68): write the record for
`key`.  The `except: pass` around the disk write is modelled as a successful
write. -/
def cache_content (cache : CacheMap) (key content : String) : CacheMap :=
  fun k => if k = key then .stored content else cache k

/-- Outcome of one `subprocess.run` invocation of the `wikipediaapi` fetch
command inside `_safe_wikipedia_fetch`. -/
inductive AttemptOutcome where
  /-- The subprocess completed: the page either exists with the given summary
  (the command prints `page.summary[:1500]`) or does not exist (the command
  prints the "Topic not found …" message). -/
  | ok (pageExists : Bool) (summary : String)
  /-- `subprocess.TimeoutExpired` was raised. -/
  | timeout
  /-- Any other exception was raised (e.g. `CalledProcessError` from
  `check=True`), carrying its rendered message `str(e)`. -/
  | failure (msg : String)

/-- Result of a fetch: the returned string, the cache after the call, and the
number of subprocess invocations performed. -/
structure FetchResult where
  result : String
  cache : CacheMap
  calls : Nat

/-- The cache key `f"{wiki_type}_{topic.lower().replace(' ', '_')}"` of
`_safe_wikipedia_fetch` (line 74). -/
def cacheKey (wikiType topic : String) : String :=
  wikiType ++ "_" ++ (topic.toList.map (fun c => if c.toLower = ' ' then '_' else c.toLower)).asString

/-- The message printed by the fetch command when the page does not exist. -/
def notFoundMsg (wikiType : String) : String :=
  "Topic not found on " ++ wikiType ++ " Wikipedia."

/-- The content produced by one completed subprocess invocation:
`result.stdout.strip()` where stdout is `page.summary[:1500]` for an existing
page and the not-found message otherwise. -/
def attemptContent (wikiType : String) (pageExists : Bool) (summary : String) : String :=
  (pyStrip (if pageExists then summary.toList.take 1500 else (notFoundMsg wikiType).toList)).asString

/-- The provider summary as returned by a successful fetch: the first 1500
characters, stripped. -/
def trim1500 (summary : String) : String :=
  (pyStrip (summary.toList.take 1500)).asString

/-- The retry loop `for attempt in range(max_retries)` of
`_safe_wikipedia_fetch` (lines 80–109): `left` counts the remaining
iterations and `idx` the attempts already consumed.  A completed subprocess
returns its content, caching it when it is non-empty and not a "Topic not
found" result; a timeout or other exception retries while `attempt <
max_retries - 1` (that is, while `left > 1`) and otherwise returns the
corresponding error string.  The final `return` after the loop is reached
only when `max_retries = 0`. -/
def fetchLoop (wikiType topic : String) (maxRetries : Nat)
    (outcomes : Nat → AttemptOutcome) (cache : CacheMap) :
    Nat → Nat → FetchResult
  | 0, idx =>
    ⟨"Error: Failed to fetch '" ++ topic ++ "' after " ++ toString maxRetries ++ " attempts",
      cache, idx⟩
  | left + 1, idx =>
    match outcomes idx with
    | .ok pageExists summary =>
      let content := attemptContent wikiType pageExists summary
      let cache' :=
        if content ≠ "" ∧ pyStartsWith "Topic not found" content = false then
          cache_content cache (cacheKey wikiType topic) content
        else cache
      ⟨content, cache', idx + 1⟩
    | .timeout =>
      if left = 0 then
        ⟨"Error: Wikipedia fetch timed out for '" ++ topic ++ "' after "
          ++ toString maxRetries ++ " attempts", cache, idx + 1⟩
      else fetchLoop wikiType topic maxRetries outcomes cache left (idx + 1)
    | .failure msg =>
      if left = 0 then
        ⟨"Error fetching from " ++ wikiType ++ " Wikipedia for '" ++ topic ++ "': " ++ msg,
          cache, idx + 1⟩
      else fetchLoop wikiType topic maxRetries outcomes cache left (idx + 1)

/-- Embedding of `tools._safe_wikipedia_fetch` (lines 70–109): a cached entry
that is non-empty and does not start with `"Error"` is returned without any
subprocess invocation; otherwise the retry loop runs. -/
def safe_wikipedia_fetch (topic wikiType : String) (maxRetries : Nat)
    (outcomes : Nat → AttemptOutcome) (cache : CacheMap) : FetchResult :=
  let cached := get_cached_content cache (cacheKey wikiType topic)
  if cached ≠ "" ∧ pyStartsWith "Error" cached = false then ⟨cached, cache, 0⟩
  else fetchLoop wikiType topic maxRetries outcomes cache maxRetries 0

/-- Embedding of `tools.fetch_wikipedia_summary` (lines 113–141): try Simple
English Wikipedia first, fall back to regular Wikipedia, and when neither
yields usable content report either the combined not-found message (when both
results contain the substring `"not found"`) or the generic access error.
`simpleOutcomes` and `enOutcomes` give the subprocess outcomes of the two
sources; the two fetches use `max_retries = 2`, the Python default. -/
def fetch_wikipedia_summary (topic : String)
    (simpleOutcomes enOutcomes : Nat → AttemptOutcome) (cache : CacheMap) : FetchResult :=
  let r1 := safe_wikipedia_fetch topic "simple" 2 simpleOutcomes cache
  if r1.result ≠ "" ∧ pyStartsWith "Topic not found" r1.result = false
      ∧ pyStartsWith "Error" r1.result = false then
    ⟨"[Simple Wikipedia] " ++ r1.result, r1.cache, r1.calls⟩
  else
    let r2 := safe_wikipedia_fetch topic "en" 2 enOutcomes r1.cache
    if r2.result ≠ "" ∧ pyStartsWith "Topic not found" r2.result = false
        ∧ pyStartsWith "Error" r2.result = false then
      ⟨"[Wikipedia] " ++ r2.result, r2.cache, r1.calls + r2.calls⟩
    else if pyContains "not found" r1.result = true ∧ pyContains "not found" r2.result = true then
      ⟨"Topic '" ++ topic
        ++ "' not found on either Simple or regular Wikipedia. Try a different topic or check spelling.",
        r2.cache, r1.calls + r2.calls⟩
    else
      ⟨"Error accessing Wikipedia for '" ++ topic ++ "'. Please try again later.",
        r2.cache, r1.calls + r2.calls⟩

/-! ## Readability Checker (`tools.get_readability_scores`, lines 154–180)

The `textstat` subprocess is external; its behaviour in one invocation is
modelled by a `ScoreOutcome`.
-/

/-- Outcome of the `subprocess.run` invocation of the `textstat` command. -/
inductive ScoreOutcome where
  /-- The subprocess exited successfully with the given stdout. -/
  | completed (stdout : String)
  /-- `subprocess.TimeoutExpired` was raised. -/
  | timeout
  /-- `subprocess.CalledProcessError` was raised with the given stderr (an
  absent stderr is modelled as the empty string, which is equally falsy). -/
  | calledProcessError (stderr : String)
  /-- Any other exception was raised, carrying its rendered message. -/
  | exc (msg : String)

/-- Embedding of `tools.get_readability_scores` (lines 154–180): empty or
whitespace-only input is rejected before any subprocess is started; otherwise
the subprocess outcome determines the result string exactly as in the
source's `try`/`except` chain. -/
def get_readability_scores (text : String) (outcome : ScoreOutcome) : String :=
  if text = "" ∨ pyStripStr text = "" then "Error: No text provided for readability check"
  else
    match outcome with
    | .completed stdout =>
      let output := pyStripStr stdout
      if output = "" then "Error: No readability score calculated" else output
    | .timeout => "Error: Readability check timed out"
    | .calledProcessError stderr =>
      "Error calculating readability: "
        ++ (if stderr ≠ "" then pyStripStr stderr else "Unknown error")
    | .exc msg => "Error checking readability: " ++ msg

/-! ## Jargon Definer (`tools.define_jargon_term`, lines 16–39)

The generative backend is external; the outcome of the single
`dspy.Predict` call is modelled by an `LMOutcome`, and the embedding
additionally reports how many generative calls were issued.
-/

/-- Outcome of the single `predictor(term=…)` generative call. -/
inductive LMOutcome where
  /-- The call returned a response whose `simple_definition` field holds the
  given string; a response without the field is modelled as `value ""`, which
  the source treats identically (both fail the
  `hasattr(…) and response.simple_definition` test). -/
  | value (simple_definition : String)
  /-- The call raised, carrying its rendered message `str(e)`. -/
  | raises (msg : String)

/-- Embedding of `tools.define_jargon_term` (lines 16–39).  Returns the
result string together with the number of generative calls issued.  An empty
or whitespace-only term is rejected with no call; an unconfigured language
model yields the configuration error with no call; otherwise exactly one
call is issued and its outcome is mapped to the result exactly as in the
source (the embedding is total: the Python `except` clause that converts an
exception into an error string is the `raises` branch). -/
def define_jargon_term (term : String) (lmConfigured : Bool) (outcome : LMOutcome) :
    String × Nat :=
  if term = "" ∨ pyStripStr term = "" then ("Error: No term provided for definition", 0)
  else if lmConfigured = false then
    ("Error: DSPy Language Model not configured. Cannot define jargon.", 0)
  else
    match outcome with
    | .value s =>
      (if s ≠ "" then pyStripStr s else "Could not generate definition for '" ++ term ++ "'", 1)
    | .raises msg => ("Error defining term '" ++ term ++ "': " ++ msg, 1)

/-! ## Simplification Controller (spec §4.6)

Modelled from the spec: the repository implements the simplification loop
only as a natural-language reasoning strategy inside the `dspy.ReAct` prompt
(`ELI5AgentSignature`, `eli5_agent.py` lines 17–63); no explicit controller
code exists under `src/`.  The state machine below follows spec §4.6:
states `FETCHING → SCORING → (DONE | SELECTING_TERM → DEFINING → REWRITING →
SCORING)`, the stop condition `grade ≤ target_grade ∨ attempt count ≥
max_attempts ∨ heuristic escape valve`, attempts recorded as full texts with
an optional grade (scorer failures are non-fatal and recorded as an unknown
score), and a definer/selection failure skipping the term rather than
aborting.  All collaborators (scorer, term selector, definer, rewriter,
heuristic) are parameters, so the termination theorem quantifies over every
behaviour of theirs.
-/

/-- Modelled from the spec: the controller states of spec §4.6 (the loop has
no implementation under `src/`, only the `ELI5AgentSignature` prompt). -/
inductive CtlState where
  | fetching
  | scoring
  | selectingTerm
  | defining
  | rewriting
  | done
deriving DecidableEq

/-- Modelled from the spec: collaborators and parameters of the simplification
controller (spec §4.6):
`scorer` may fail (`none`), `selectTerm` may decline to pick a term, and
`heuristicStop` is the "further simplification won't help" escape valve, all
with arbitrary behaviour. -/
structure CtlParams where
  maxAttempts : Nat
  target : ℚ
  initialText : String
  scorer : Nat → String → Option ℚ
  heuristicStop : Nat → String → Bool
  selectTerm : String → List (String × String) → Option String
  defineTerm : String → String
  rewrite : String → String → String

/-- Modelled from the spec: a controller configuration — current state, the
attempts recorded so far
(newest first, each a full text with its optional grade), the term selected
for the pending definition, and the jargon entries produced so far. -/
structure CtlConfig where
  state : CtlState
  attempts : List (String × Option ℚ)
  pendingTerm : Option String
  defs : List (String × String)

/-- Modelled from the spec: the initial controller configuration — state
`FETCHING`, nothing recorded. -/
def ctlInit : CtlConfig :=
  ⟨.fetching, [], none, []⟩

/-- Text of the current (most recent) attempt. -/
def currentText (cfg : CtlConfig) : String :=
  (cfg.attempts.headD ("", none)).1

/-- Modelled from the spec: the stop condition of spec §4.6 — grade at or
below target, attempt count
has reached `max_attempts`, or the heuristic escape valve fires.  A failed
score (`none`) never satisfies the grade test, so the cap is the guarantee. -/
def ctlStop (p : CtlParams) (grade : Option ℚ) (count : Nat) (text : String) : Bool :=
  (match grade with
   | some g => decide (g ≤ p.target)
   | none => false)
    || decide (p.maxAttempts ≤ count) || p.heuristicStop count text

/-- Modelled from the spec: one transition of the controller state machine of
spec §4.6. -/
def ctlStep (p : CtlParams) (cfg : CtlConfig) : CtlConfig :=
  match cfg.state with
  | .fetching =>
    { state := .scoring, attempts := [(p.initialText, none)], pendingTerm := none, defs := [] }
  | .scoring =>
    let grade := p.scorer cfg.attempts.length (currentText cfg)
    let attempts' :=
      match cfg.attempts with
      | [] => []
      | (t, _) :: rest => (t, grade) :: rest
    if ctlStop p grade attempts'.length (currentText cfg) then
      { cfg with state := .done, attempts := attempts' }
    else
      { cfg with state := .selectingTerm, attempts := attempts' }
  | .selectingTerm =>
    match p.selectTerm (currentText cfg) cfg.defs with
    | some term => { cfg with state := .defining, pendingTerm := some term }
    | none => { cfg with state := .rewriting, pendingTerm := none }
  | .defining =>
    match cfg.pendingTerm with
    | some term =>
      { cfg with state := .rewriting, defs := (term, p.defineTerm term) :: cfg.defs }
    | none => { cfg with state := .rewriting }
  | .rewriting =>
    { cfg with
      state := .scoring,
      attempts := (p.rewrite (currentText cfg) (cfg.defs.headD ("", "")).2, none) :: cfg.attempts,
      pendingTerm := none }
  | .done => cfg

/-- Number of controller steps that provably suffices to reach `DONE`. -/
def ctlBound (p : CtlParams) : Nat :=
  4 * (p.maxAttempts + 1) + 5

/-- Termination measure for the controller: strictly decreasing along
`ctlStep` on every configuration satisfying `ctlInv`. -/
def ctlMeasure (p : CtlParams) (cfg : CtlConfig) : Nat :=
  match cfg.state with
  | .done => 0
  | .fetching => 4 * (p.maxAttempts + 1) + 5
  | .scoring => 4 * (p.maxAttempts + 1 - cfg.attempts.length) + 4
  | .selectingTerm => 4 * (p.maxAttempts + 1 - cfg.attempts.length) + 3
  | .defining => 4 * (p.maxAttempts + 1 - cfg.attempts.length) + 2
  | .rewriting => 4 * (p.maxAttempts + 1 - cfg.attempts.length) + 1

/-- Controller invariant: no attempts before fetching, at least one and at
most `max 1 max_attempts` afterwards, and strictly fewer than `max_attempts`
in the three states between a failed stop check and the next scoring. -/
def ctlInv (p : CtlParams) (cfg : CtlConfig) : Prop :=
  (cfg.state = .fetching → cfg.attempts = [])
    ∧ (cfg.state ≠ .fetching →
        1 ≤ cfg.attempts.length ∧ cfg.attempts.length ≤ p.maxAttempts + 1)
    ∧ ((cfg.state = .selectingTerm ∨ cfg.state = .defining ∨ cfg.state = .rewriting) →
        cfg.attempts.length < p.maxAttempts)

/-! ## Controller lemmas and C1 -/

theorem ctlStep_done (p : CtlParams) (cfg : CtlConfig) (h : cfg.state = .done) :
    ctlStep p cfg = cfg := by
  obtain ⟨st, att, pend, dfs⟩ := cfg
  simp only at h
  subst h
  rfl

theorem ctlInv_init (p : CtlParams) : ctlInv p ctlInit := by
  refine ⟨fun _ => rfl, fun h => absurd rfl h, fun h => ?_⟩
  rcases h with h | h | h <;> exact CtlState.noConfusion h

theorem ctlInv_step (p : CtlParams) (cfg : CtlConfig) (h : ctlInv p cfg) :
    ctlInv p (ctlStep p cfg) := by
  obtain ⟨st, att, pend, dfs⟩ := cfg
  obtain ⟨h1, h2, h3⟩ := h
  cases st with
  | fetching =>
    refine ⟨fun h => CtlState.noConfusion h,
      fun _ => ⟨Nat.le_refl 1, Nat.succ_le_succ (Nat.zero_le _)⟩, fun h => ?_⟩
    rcases h with h | h | h <;> exact CtlState.noConfusion h
  | scoring =>
    obtain ⟨hlen, hub⟩ := h2 (fun h => CtlState.noConfusion h)
    cases att with
    | nil => simp at hlen
    | cons a rest =>
      simp only [ctlStep]
      split
      · refine ⟨fun h => CtlState.noConfusion h,
          fun _ => ⟨Nat.succ_le_succ (Nat.zero_le _), hub⟩, fun h => ?_⟩
        rcases h with h | h | h <;> exact CtlState.noConfusion h
      · rename_i hstop
        refine ⟨fun h => CtlState.noConfusion h,
          fun _ => ⟨Nat.succ_le_succ (Nat.zero_le _), hub⟩, fun _ => ?_⟩
        simp only [ctlStop, Bool.or_eq_true, decide_eq_true_eq] at hstop
        push_neg at hstop
        have hcap := hstop.1.2
        simp only [List.length_cons] at hcap ⊢
        omega
  | selectingTerm =>
    have hlt := h3 (Or.inl rfl)
    obtain ⟨hlen, hub⟩ := h2 (fun h => CtlState.noConfusion h)
    simp only [ctlStep]
    split <;>
      exact ⟨fun h => CtlState.noConfusion h, fun _ => ⟨hlen, hub⟩, fun _ => hlt⟩
  | defining =>
    have hlt := h3 (Or.inr (Or.inl rfl))
    obtain ⟨hlen, hub⟩ := h2 (fun h => CtlState.noConfusion h)
    simp only [ctlStep]
    split <;>
      exact ⟨fun h => CtlState.noConfusion h, fun _ => ⟨hlen, hub⟩, fun _ => hlt⟩
  | rewriting =>
    have hlt := h3 (Or.inr (Or.inr rfl))
    refine ⟨fun h => CtlState.noConfusion h,
      fun _ => ⟨Nat.succ_le_succ (Nat.zero_le _), Nat.succ_le_succ (Nat.le_of_lt hlt)⟩,
      fun h => ?_⟩
    rcases h with h | h | h <;> exact CtlState.noConfusion h
  | done =>
    exact ⟨h1, h2, h3⟩

theorem ctlMeasure_step (p : CtlParams) (cfg : CtlConfig) (h : ctlInv p cfg)
    (hd : cfg.state ≠ .done) : ctlMeasure p (ctlStep p cfg) < ctlMeasure p cfg := by
  obtain ⟨st, att, pend, dfs⟩ := cfg
  obtain ⟨h1, h2, h3⟩ := h
  cases st with
  | fetching =>
    simp only [ctlStep, ctlMeasure, List.length_singleton]
    omega
  | scoring =>
    obtain ⟨hlen, hub⟩ := h2 (fun h => CtlState.noConfusion h)
    cases att with
    | nil => simp at hlen
    | cons a rest =>
      simp only [ctlStep]
      split <;> simp only [ctlMeasure, List.length_cons] <;> omega
  | selectingTerm =>
    simp only [ctlStep]
    split <;> simp only [ctlMeasure] <;> omega
  | defining =>
    simp only [ctlStep]
    split <;> simp only [ctlMeasure] <;> omega
  | rewriting =>
    have hlt : att.length < p.maxAttempts := h3 (Or.inr (Or.inr rfl))
    simp only [ctlStep, ctlMeasure, List.length_cons]
    omega
  | done => exact absurd rfl hd

theorem ctlReach (p : CtlParams) :
    ∀ n cfg, ctlInv p cfg → ctlMeasure p cfg ≤ n →
      ((ctlStep p)^[n] cfg).state = .done ∧ ctlInv p ((ctlStep p)^[n] cfg) := by
  intro n
  induction n with
  | zero =>
    intro cfg hi hm
    simp only [Function.iterate_zero_apply]
    obtain ⟨st, att, pend, dfs⟩ := cfg
    cases st with
    | done => exact ⟨rfl, hi⟩
    | fetching => exact absurd hm (by simp only [ctlMeasure]; omega)
    | scoring => exact absurd hm (by simp only [ctlMeasure]; omega)
    | selectingTerm => exact absurd hm (by simp only [ctlMeasure]; omega)
    | defining => exact absurd hm (by simp only [ctlMeasure]; omega)
    | rewriting => exact absurd hm (by simp only [ctlMeasure]; omega)
  | succ n ih =>
    intro cfg hi hm
    rw [Function.iterate_succ_apply]
    by_cases hd : cfg.state = .done
    · rw [ctlStep_done p cfg hd]
      refine ih cfg hi ?_
      have hz : ctlMeasure p cfg = 0 := by unfold ctlMeasure; rw [hd]
      omega
    · refine ih _ (ctlInv_step p cfg hi) ?_
      have := ctlMeasure_step p cfg hi hd
      omega

/-- C1.  For every parameterisation of the spec §4.6 simplification
controller — in particular for every behaviour of the readability scorer,
including one that always fails or always reports a grade above the target —
iterating the state machine from its initial state reaches `DONE` within
`ctlBound` steps, and the number of rewrites performed (attempts recorded
beyond the seeded first one) never exceeds `max_attempts`.  No input or
scorer behaviour makes the simplification loop run forever. -/
theorem controller_reaches_done_within_max_attempts (p : CtlParams) :
    ((ctlStep p)^[ctlBound p] ctlInit).state = .done ∧
      ((ctlStep p)^[ctlBound p] ctlInit).attempts.length - 1 ≤ p.maxAttempts := by
  have hm : ctlMeasure p ctlInit ≤ ctlBound p := Nat.le_refl _
  obtain ⟨hd, hI⟩ := ctlReach p (ctlBound p) ctlInit (ctlInv_init p) hm
  refine ⟨hd, ?_⟩
  obtain ⟨-, h2, -⟩ := hI
  have hub := (h2 (by rw [hd]; exact fun h => CtlState.noConfusion h)).2
  omega

/-! ## Fetcher lemmas -/

@[simp] theorem fetchResult_result (r : String) (c : CacheMap) (n : Nat) :
    (FetchResult.mk r c n).result = r := rfl

@[simp] theorem fetchResult_cache (r : String) (c : CacheMap) (n : Nat) :
    (FetchResult.mk r c n).cache = c := rfl

@[simp] theorem fetchResult_calls (r : String) (c : CacheMap) (n : Nat) :
    (FetchResult.mk r c n).calls = n := rfl

theorem attemptContent_true (w s : String) : attemptContent w true s = trim1500 s := rfl

theorem attemptContent_false (w s : String) :
    attemptContent w false s = (pyStrip (notFoundMsg w).toList).asString := rfl

/-- A fetch whose first subprocess attempt completes: the loop returns that
attempt's content immediately, caching it exactly when it is non-empty and
not a not-found message. -/
theorem safe_fetch_first_outcome_ok (topic w T : String) (pe : Bool) (m : Nat)
    (o : Nat → AttemptOutcome) (cache : CacheMap)
    (hc : cache (cacheKey w topic) = .absent) (h0 : o 0 = .ok pe T) :
    safe_wikipedia_fetch topic w (m + 1) o cache =
      ⟨attemptContent w pe T,
        if attemptContent w pe T ≠ "" ∧
            pyStartsWith "Topic not found" (attemptContent w pe T) = false then
          cache_content cache (cacheKey w topic) (attemptContent w pe T)
        else cache, 1⟩ := by
  simp only [safe_wikipedia_fetch, get_cached_content, hc]
  rw [if_neg (by simp)]
  simp only [fetchLoop, h0]

/-- A fetch that finds a usable cache entry returns it with no subprocess
invocation and no cache change. -/
theorem safe_fetch_cache_hit (topic w c : String) (m : Nat)
    (o : Nat → AttemptOutcome) (cache : CacheMap)
    (hc : cache (cacheKey w topic) = .stored c) (h1 : c ≠ "")
    (h2 : pyStartsWith "Error" c = false) :
    safe_wikipedia_fetch topic w m o cache = ⟨c, cache, 0⟩ := by
  simp only [safe_wikipedia_fetch, get_cached_content, hc]
  rw [if_pos ⟨h1, h2⟩]

/-- Any cache entry changed by the retry loop is the loop's own key, holds
exactly the returned content, and that content is a non-empty, non-not-found
result of a completed subprocess attempt. -/
theorem fetchLoop_cache_change (w t : String) (m : Nat) (o : Nat → AttemptOutcome)
    (cache : CacheMap) (k : String) :
    ∀ left idx,
      (fetchLoop w t m o cache left idx).cache k ≠ cache k →
      k = cacheKey w t ∧
      (fetchLoop w t m o cache left idx).cache k
        = .stored (fetchLoop w t m o cache left idx).result ∧
      (fetchLoop w t m o cache left idx).result ≠ "" ∧
      pyStartsWith "Topic not found" (fetchLoop w t m o cache left idx).result = false ∧
      ∃ i, idx ≤ i ∧ i < idx + left ∧ ∃ pe s, o i = .ok pe s ∧
        (fetchLoop w t m o cache left idx).result = attemptContent w pe s := by
  intro left
  induction left with
  | zero =>
    intro idx h
    exact absurd rfl h
  | succ left ih =>
    intro idx h
    cases ho : o idx with
    | ok pe s =>
      simp only [fetchLoop, ho] at h ⊢
      by_cases hcond : attemptContent w pe s ≠ "" ∧
          pyStartsWith "Topic not found" (attemptContent w pe s) = false
      · rw [if_pos hcond] at h ⊢
        by_cases hk : k = cacheKey w t
        · subst hk
          refine ⟨rfl, ?_, hcond.1, hcond.2, idx, Nat.le_refl idx, by omega, pe, s, ho, rfl⟩
          simp [cache_content]
        · exact absurd (by simp [cache_content, hk]) h
      · rw [if_neg hcond] at h
        exact absurd rfl h
    | timeout =>
      simp only [fetchLoop, ho] at h ⊢
      by_cases hl : left = 0
      · subst hl
        rw [if_pos rfl] at h
        exact absurd rfl h
      · rw [if_neg hl] at h ⊢
        obtain ⟨hk, hst, hne, hpre, i, hi1, hi2, rest⟩ := ih (idx + 1) h
        exact ⟨hk, hst, hne, hpre, i, by omega, by omega, rest⟩
    | failure msg =>
      simp only [fetchLoop, ho] at h ⊢
      by_cases hl : left = 0
      · subst hl
        rw [if_pos rfl] at h
        exact absurd rfl h
      · rw [if_neg hl] at h ⊢
        obtain ⟨hk, hst, hne, hpre, i, hi1, hi2, rest⟩ := ih (idx + 1) h
        exact ⟨hk, hst, hne, hpre, i, by omega, by omega, rest⟩

/-- C2.  A cache entry is written by `_safe_wikipedia_fetch` only when the
fetch succeeded: whatever the topic, source, retry budget, prior cache and
subprocess behaviour, any cache key whose file changed is the fetch's own
key, and it now stores exactly the returned content, which is non-empty, is
not a "Topic not found" result, and is the content of a completed
subprocess attempt.  In particular timeout results, error results, empty
results and not-found results are never written to the cache. -/
theorem cache_written_only_on_successful_fetch (topic wikiType : String)
    (maxRetries : Nat) (outcomes : Nat → AttemptOutcome) (cache : CacheMap) (k : String)
    (h : (safe_wikipedia_fetch topic wikiType maxRetries outcomes cache).cache k ≠ cache k) :
    k = cacheKey wikiType topic ∧
    (safe_wikipedia_fetch topic wikiType maxRetries outcomes cache).cache k
      = .stored (safe_wikipedia_fetch topic wikiType maxRetries outcomes cache).result ∧
    (safe_wikipedia_fetch topic wikiType maxRetries outcomes cache).result ≠ "" ∧
    pyStartsWith "Topic not found"
      (safe_wikipedia_fetch topic wikiType maxRetries outcomes cache).result = false ∧
    ∃ i, i < maxRetries ∧ ∃ pe s, outcomes i = .ok pe s ∧
      (safe_wikipedia_fetch topic wikiType maxRetries outcomes cache).result
        = attemptContent wikiType pe s := by
  by_cases hcached : get_cached_content cache (cacheKey wikiType topic) ≠ "" ∧
      pyStartsWith "Error" (get_cached_content cache (cacheKey wikiType topic)) = false
  · exfalso
    apply h
    simp only [safe_wikipedia_fetch]
    rw [if_pos hcached]
  · simp only [safe_wikipedia_fetch] at h ⊢
    rw [if_neg hcached] at h ⊢
    obtain ⟨hk, hst, hne, hpre, i, -, hi2, rest⟩ :=
      fetchLoop_cache_change wikiType topic maxRetries outcomes cache k maxRetries 0 h
    exact ⟨hk, hst, hne, hpre, i, by omega, rest⟩

theorem cache_written_only_on_successful_fetch_witness :
    ((safe_wikipedia_fetch "Gravity" "simple" 2 (fun _ => .ok true "Gravity is a force.")
        emptyCache).cache "simple_gravity" ≠ emptyCache "simple_gravity") ∧
    ("simple_gravity" = cacheKey "simple" "Gravity" ∧
      (safe_wikipedia_fetch "Gravity" "simple" 2 (fun _ => .ok true "Gravity is a force.")
          emptyCache).cache "simple_gravity"
        = .stored (safe_wikipedia_fetch "Gravity" "simple" 2
            (fun _ => .ok true "Gravity is a force.") emptyCache).result ∧
      (safe_wikipedia_fetch "Gravity" "simple" 2 (fun _ => .ok true "Gravity is a force.")
          emptyCache).result ≠ "" ∧
      pyStartsWith "Topic not found"
        (safe_wikipedia_fetch "Gravity" "simple" 2 (fun _ => .ok true "Gravity is a force.")
          emptyCache).result = false ∧
      ∃ i, i < 2 ∧ ∃ pe s, (fun _ : Nat => AttemptOutcome.ok true "Gravity is a force.") i
          = .ok pe s ∧
        (safe_wikipedia_fetch "Gravity" "simple" 2 (fun _ => .ok true "Gravity is a force.")
            emptyCache).result = attemptContent "simple" pe s) :=
  ⟨by decide,
    cache_written_only_on_successful_fetch "Gravity" "simple" 2
      (fun _ => .ok true "Gravity is a force.") emptyCache "simple_gravity" (by decide)⟩

/-! ## Fetcher claims C3, C4, C5, C9, C10 -/

theorem stripTrail_length_le (l : List Char) : (stripTrail l).length ≤ l.length := by
  calc (stripTrail l).length = (l.reverse.dropWhile pyIsSpace).length :=
        List.length_reverse _
    _ ≤ l.reverse.length := (List.dropWhile_suffix pyIsSpace).length_le
    _ = l.length := List.length_reverse l

theorem pyStrip_length_le (l : List Char) : (pyStrip l).length ≤ l.length :=
  le_trans (stripTrail_length_le _) (List.dropWhile_suffix pyIsSpace).length_le

theorem toList_asString (l : List Char) : (List.asString l).toList = l := rfl

/-- The simplified-source fetch of a topic whose first subprocess attempt
reports a missing page returns the not-found message without touching the
cache. -/
theorem safe_fetch_first_not_found (topic w sS : String) (o : Nat → AttemptOutcome)
    (cache : CacheMap) (hc : cache (cacheKey w topic) = .absent)
    (h0 : o 0 = .ok false sS)
    (hval : (pyStrip (notFoundMsg w).toList).asString = notFoundMsg w)
    (hwr : ¬(notFoundMsg w ≠ "" ∧ pyStartsWith "Topic not found" (notFoundMsg w) = false)) :
    safe_wikipedia_fetch topic w 2 o cache = ⟨notFoundMsg w, cache, 1⟩ := by
  have h := safe_fetch_first_outcome_ok topic w sS false 1 o cache hc h0
  rw [attemptContent_false, hval] at h
  rw [if_neg hwr] at h
  exact h

/-- A string does not start with a prefix whose first character differs from
the string's own first character. -/
theorem pyStartsWith_false_of_head_ne (p s : String) (cp c : Char)
    (hp : p.toList.head? = some cp) (hs : s.toList.head? = some c)
    (hne : (cp == c) = false) : pyStartsWith p s = false := by
  unfold pyStartsWith
  cases hp' : p.toList with
  | nil => rw [hp'] at hp; exact absurd hp (by simp)
  | cons a as =>
    cases hs' : s.toList with
    | nil => rw [hs'] at hs; exact absurd hs (by simp)
    | cons b bs =>
      rw [hp'] at hp
      rw [hs'] at hs
      simp only [List.head?_cons, Option.some.injEq] at hp hs
      subst hp
      subst hs
      simp [List.isPrefixOf, hne]

/-- C3 counterexample.  With the simplified source missing and the general
source returning the text `"Gravity pulls objects toward each other. "`
(note the trailing space), the fetch result is tagged general but its
content is the *stripped* text, not the provider text verbatim: the claim
"content equals T" is false at this input. -/
theorem fallback_content_not_verbatim_counterexample :
    (fetch_wikipedia_summary "Gravity" (fun _ => .ok false "")
        (fun _ => .ok true "Gravity pulls objects toward each other. ") emptyCache).result
      = "[Wikipedia] Gravity pulls objects toward each other." ∧
    (fetch_wikipedia_summary "Gravity" (fun _ => .ok false "")
        (fun _ => .ok true "Gravity pulls objects toward each other. ") emptyCache).result
      ≠ "[Wikipedia] " ++ "Gravity pulls objects toward each other. " := by
  refine ⟨by decide, by decide⟩

/-- C3 (amended).  If the simplified source reports not-found and the
general source returns existing text `T`: when the fetcher's processed text
— the first 1500 characters of `T` stripped of surrounding whitespace — is
usable, i.e. non-empty and not beginning with `"Topic not found"` or
`"Error"` (the markers the fetcher uses to recognise failed results), the
fetch returns a result tagged `[Wikipedia]` (the general source) whose
content equals that processed text; when it is not usable, the fetch
returns no general-tagged result at all but falls through to its
not-found/error reporting. -/
theorem fallback_returns_general_source_trimmed (topic sS T : String)
    (oS oE : Nat → AttemptOutcome) (cache : CacheMap)
    (hc1 : cache (cacheKey "simple" topic) = .absent)
    (hc2 : cache (cacheKey "en" topic) = .absent)
    (hS : oS 0 = .ok false sS)
    (hE : oE 0 = .ok true T) :
    ((trim1500 T ≠ "" ∧ pyStartsWith "Topic not found" (trim1500 T) = false
        ∧ pyStartsWith "Error" (trim1500 T) = false) →
      (fetch_wikipedia_summary topic oS oE cache).result = "[Wikipedia] " ++ trim1500 T) ∧
    (¬(trim1500 T ≠ "" ∧ pyStartsWith "Topic not found" (trim1500 T) = false
        ∧ pyStartsWith "Error" (trim1500 T) = false) →
      pyStartsWith "[Wikipedia]" (fetch_wikipedia_summary topic oS oE cache).result
        = false) := by
  have hs1 : safe_wikipedia_fetch topic "simple" 2 oS cache
      = ⟨notFoundMsg "simple", cache, 1⟩ :=
    safe_fetch_first_not_found topic "simple" sS oS cache hc1 hS (by decide) (by decide)
  have hs2 : safe_wikipedia_fetch topic "en" 2 oE cache
      = ⟨attemptContent "en" true T,
          if attemptContent "en" true T ≠ "" ∧
              pyStartsWith "Topic not found" (attemptContent "en" true T) = false then
            cache_content cache (cacheKey "en" topic) (attemptContent "en" true T)
          else cache, 1⟩ :=
    safe_fetch_first_outcome_ok topic "en" T true 1 oE cache hc2 hE
  rw [attemptContent_true] at hs2
  constructor
  · intro hu
    have hs2' : safe_wikipedia_fetch topic "en" 2 oE cache
        = ⟨trim1500 T, cache_content cache (cacheKey "en" topic) (trim1500 T), 1⟩ := by
      rw [hs2, if_pos ⟨hu.1, hu.2.1⟩]
    simp only [fetch_wikipedia_summary]
    rw [hs1]
    simp only [fetchResult_result, fetchResult_cache, fetchResult_calls]
    rw [if_neg (by decide)]
    rw [hs2']
    simp only [fetchResult_result, fetchResult_cache, fetchResult_calls]
    rw [if_pos hu]
  · intro hnu
    simp only [fetch_wikipedia_summary]
    rw [hs1]
    simp only [fetchResult_result, fetchResult_cache, fetchResult_calls]
    rw [if_neg (by decide)]
    rw [hs2]
    simp only [fetchResult_result, fetchResult_cache, fetchResult_calls]
    rw [if_neg hnu]
    split
    · simp only [fetchResult_result]
      exact pyStartsWith_false_of_head_ne "[Wikipedia]" _ '[' 'T' rfl
        (by simp only [String.toList, String.data_append]; rfl) (by decide)
    · simp only [fetchResult_result]
      exact pyStartsWith_false_of_head_ne "[Wikipedia]" _ '[' 'E' rfl
        (by simp only [String.toList, String.data_append]; rfl) (by decide)

theorem fallback_returns_general_source_trimmed_witness :
    (emptyCache (cacheKey "simple" "Gravity") = .absent ∧
      emptyCache (cacheKey "en" "Gravity") = .absent ∧
      (fun _ : Nat => AttemptOutcome.ok false "") 0 = .ok false "" ∧
      (fun _ : Nat => AttemptOutcome.ok true "Gravity pulls objects toward each other.") 0
        = .ok true "Gravity pulls objects toward each other." ∧
      (trim1500 "Gravity pulls objects toward each other." ≠ "" ∧
        pyStartsWith "Topic not found"
          (trim1500 "Gravity pulls objects toward each other.") = false ∧
        pyStartsWith "Error" (trim1500 "Gravity pulls objects toward each other.") = false)) ∧
    (fetch_wikipedia_summary "Gravity" (fun _ => .ok false "")
        (fun _ => .ok true "Gravity pulls objects toward each other.") emptyCache).result
      = "[Wikipedia] " ++ trim1500 "Gravity pulls objects toward each other." :=
  ⟨⟨rfl, rfl, rfl, rfl, by decide, by decide, by decide⟩,
    (fallback_returns_general_source_trimmed "Gravity" ""
        "Gravity pulls objects toward each other." (fun _ => .ok false "")
        (fun _ => .ok true "Gravity pulls objects toward each other.") emptyCache
        rfl rfl rfl rfl).1 ⟨by decide, by decide, by decide⟩⟩

/-- C4 counterexample.  Two pure infrastructure-failure scenarios — no
source ever reporting a missing page — in which the fetch nevertheless
returns the clean not-found message, because the code detects the
not-found case by searching for the substring `"not found"` inside both
result strings.  First, the topic `"not found"` with both sources timing
out on every attempt: the timeout error messages quote the topic name.
Second, the ordinary topic `"Gravity"` with both sources raising an
exception whose message quotes the fetch command's own not-found literal
(as a `CalledProcessError` rendering the command would).  In both cases an
infrastructure failure *is* conflated with a clean not-found result,
refuting the claim's no-conflation part. -/
theorem not_found_conflation_counterexample :
    (fetch_wikipedia_summary "not found" (fun _ => .timeout) (fun _ => .timeout)
        emptyCache).result
      = "Topic 'not found' not found on either Simple or regular Wikipedia. Try a different topic or check spelling." ∧
    pyStartsWith "Error"
      (safe_wikipedia_fetch "not found" "simple" 2 (fun _ => .timeout) emptyCache).result
        = true ∧
    pyStartsWith "Error"
      (safe_wikipedia_fetch "not found" "en" 2 (fun _ => .timeout) emptyCache).result
        = true ∧
    (fetch_wikipedia_summary "Gravity"
        (fun _ => .failure "parse of 'Topic not found on simple Wikipedia.' failed")
        (fun _ => .failure "parse of 'Topic not found on simple Wikipedia.' failed")
        emptyCache).result
      = "Topic 'Gravity' not found on either Simple or regular Wikipedia. Try a different topic or check spelling." ∧
    pyStartsWith "Error"
      (safe_wikipedia_fetch "Gravity" "simple" 2
        (fun _ => .failure "parse of 'Topic not found on simple Wikipedia.' failed")
        emptyCache).result = true := by
  refine ⟨by decide, by decide, by decide, by decide, by decide⟩

/-- C4 (amended).  When both sources complete and report a missing page,
the fetch fails with the distinct message naming both sources tried ("not
found on either Simple or regular Wikipedia"), for every topic and cache.
The code recognises this case by substring search for `"not found"` in
both result strings, so the clean not-found outcome is not reliably
distinguished from infrastructure failures: any pair of source failures
whose error messages contain that substring — a topic named "not found"
timing out, or exceptions quoting the command's own not-found literal — is
reported the same way (see the counterexample). -/
theorem both_sources_not_found_distinct_error (topic sS sE : String)
    (oS oE : Nat → AttemptOutcome) (cache : CacheMap)
    (hc1 : cache (cacheKey "simple" topic) = .absent)
    (hc2 : cache (cacheKey "en" topic) = .absent)
    (hS : oS 0 = .ok false sS)
    (hE : oE 0 = .ok false sE) :
    (fetch_wikipedia_summary topic oS oE cache).result
      = "Topic '" ++ topic
        ++ "' not found on either Simple or regular Wikipedia. Try a different topic or check spelling." := by
  have hs1 : safe_wikipedia_fetch topic "simple" 2 oS cache
      = ⟨notFoundMsg "simple", cache, 1⟩ :=
    safe_fetch_first_not_found topic "simple" sS oS cache hc1 hS (by decide) (by decide)
  have hs2 : safe_wikipedia_fetch topic "en" 2 oE cache
      = ⟨notFoundMsg "en", cache, 1⟩ :=
    safe_fetch_first_not_found topic "en" sE oE cache hc2 hE (by decide) (by decide)
  simp only [fetch_wikipedia_summary]
  rw [hs1]
  simp only [fetchResult_result, fetchResult_cache, fetchResult_calls]
  rw [if_neg (by decide)]
  rw [hs2]
  simp only [fetchResult_result, fetchResult_cache, fetchResult_calls]
  rw [if_neg (by decide)]
  rw [if_pos ⟨by decide, by decide⟩]

theorem both_sources_not_found_distinct_error_witness :
    (emptyCache (cacheKey "simple" "Xyzzyplorp") = .absent ∧
      emptyCache (cacheKey "en" "Xyzzyplorp") = .absent ∧
      (fun _ : Nat => AttemptOutcome.ok false "") 0 = .ok false "" ∧
      (fun _ : Nat => AttemptOutcome.ok false "") 0 = .ok false "") ∧
    (fetch_wikipedia_summary "Xyzzyplorp" (fun _ => .ok false "")
        (fun _ => .ok false "") emptyCache).result
      = "Topic '" ++ "Xyzzyplorp"
        ++ "' not found on either Simple or regular Wikipedia. Try a different topic or check spelling." :=
  ⟨⟨rfl, rfl, rfl, rfl⟩,
    both_sources_not_found_distinct_error "Xyzzyplorp" "" "" (fun _ => .ok false "")
      (fun _ => .ok false "") emptyCache rfl rfl rfl rfl⟩

/-- C5.  After a fetch of a topic that succeeds from the simplified source,
a second fetch of the same topic against the resulting cache — with *any*
subprocess behaviour whatsoever — returns content identical to the first
result and performs zero subprocess invocations: the cached content is
returned on the cache-hit path without invoking the external provider
again. -/
theorem second_fetch_served_from_cache (topic T : String)
    (oS oE oS' oE' : Nat → AttemptOutcome) (cache : CacheMap)
    (hc : cache (cacheKey "simple" topic) = .absent)
    (h0 : oS 0 = .ok true T)
    (h1 : trim1500 T ≠ "")
    (h2 : pyStartsWith "Topic not found" (trim1500 T) = false)
    (h3 : pyStartsWith "Error" (trim1500 T) = false) :
    (fetch_wikipedia_summary topic oS oE cache).result
      = "[Simple Wikipedia] " ++ trim1500 T ∧
    (fetch_wikipedia_summary topic oS' oE'
        (fetch_wikipedia_summary topic oS oE cache).cache).result
      = (fetch_wikipedia_summary topic oS oE cache).result ∧
    (fetch_wikipedia_summary topic oS' oE'
        (fetch_wikipedia_summary topic oS oE cache).cache).calls = 0 := by
  have hs1 : safe_wikipedia_fetch topic "simple" 2 oS cache
      = ⟨trim1500 T, cache_content cache (cacheKey "simple" topic) (trim1500 T), 1⟩ := by
    have h := safe_fetch_first_outcome_ok topic "simple" T true 1 oS cache hc h0
    rw [attemptContent_true] at h
    rw [if_pos ⟨h1, h2⟩] at h
    exact h
  have hfull1 : fetch_wikipedia_summary topic oS oE cache
      = ⟨"[Simple Wikipedia] " ++ trim1500 T,
          cache_content cache (cacheKey "simple" topic) (trim1500 T), 1⟩ := by
    simp only [fetch_wikipedia_summary]
    rw [hs1]
    simp only [fetchResult_result, fetchResult_cache, fetchResult_calls]
    rw [if_pos ⟨h1, h2, h3⟩]
  have hhit : safe_wikipedia_fetch topic "simple" 2 oS'
      (cache_content cache (cacheKey "simple" topic) (trim1500 T))
      = ⟨trim1500 T, cache_content cache (cacheKey "simple" topic) (trim1500 T), 0⟩ :=
    safe_fetch_cache_hit topic "simple" (trim1500 T) 2 oS' _ (by simp [cache_content]) h1 h3
  have hfull2 : fetch_wikipedia_summary topic oS' oE'
      (cache_content cache (cacheKey "simple" topic) (trim1500 T))
      = ⟨"[Simple Wikipedia] " ++ trim1500 T,
          cache_content cache (cacheKey "simple" topic) (trim1500 T), 0⟩ := by
    simp only [fetch_wikipedia_summary]
    rw [hhit]
    simp only [fetchResult_result, fetchResult_cache, fetchResult_calls]
    rw [if_pos ⟨h1, h2, h3⟩]
  rw [hfull1]
  simp only [fetchResult_result, fetchResult_cache, fetchResult_calls]
  rw [hfull2]
  simp

theorem second_fetch_served_from_cache_witness :
    (emptyCache (cacheKey "simple" "Gravity") = .absent ∧
      (fun _ : Nat => AttemptOutcome.ok true "Gravity is a force.") 0
        = .ok true "Gravity is a force." ∧
      trim1500 "Gravity is a force." ≠ "" ∧
      pyStartsWith "Topic not found" (trim1500 "Gravity is a force.") = false ∧
      pyStartsWith "Error" (trim1500 "Gravity is a force.") = false) ∧
    ((fetch_wikipedia_summary "Gravity" (fun _ => .ok true "Gravity is a force.")
        (fun _ => .timeout) emptyCache).result
      = "[Simple Wikipedia] " ++ trim1500 "Gravity is a force." ∧
    (fetch_wikipedia_summary "Gravity" (fun _ => .timeout) (fun _ => .timeout)
        (fetch_wikipedia_summary "Gravity" (fun _ => .ok true "Gravity is a force.")
          (fun _ => .timeout) emptyCache).cache).result
      = (fetch_wikipedia_summary "Gravity" (fun _ => .ok true "Gravity is a force.")
          (fun _ => .timeout) emptyCache).result ∧
    (fetch_wikipedia_summary "Gravity" (fun _ => .timeout) (fun _ => .timeout)
        (fetch_wikipedia_summary "Gravity" (fun _ => .ok true "Gravity is a force.")
          (fun _ => .timeout) emptyCache).cache).calls = 0) :=
  ⟨⟨rfl, rfl, by decide, by decide, by decide⟩,
    second_fetch_served_from_cache "Gravity" "Gravity is a force."
      (fun _ => .ok true "Gravity is a force.") (fun _ => .timeout)
      (fun _ => .timeout) (fun _ => .timeout) emptyCache
      rfl rfl (by decide) (by decide) (by decide)⟩

/-- C9.  For every topic, every source (`wiki_type`), every positive retry
budget and a cache without an entry for the key, a fetch whose first
subprocess attempt finds the page returns the first 1500 characters of the
provider's summary, stripped of surrounding whitespace — hence at most
1500 characters — and, when that content is usable (non-empty and not a
not-found message), caches exactly it.  The truncation
`page.summary[:1500]` is performed by the fetch command itself and is
stated nowhere in the spec. -/
theorem successful_fetch_truncates_summary (topic wikiType T : String) (m : Nat)
    (o : Nat → AttemptOutcome) (cache : CacheMap)
    (hc : cache (cacheKey wikiType topic) = .absent)
    (h0 : o 0 = .ok true T) :
    ((safe_wikipedia_fetch topic wikiType (m + 1) o cache).result = trim1500 T ∧
      trim1500 T = (pyStrip (T.toList.take 1500)).asString ∧
      (trim1500 T).toList.length ≤ 1500) ∧
    ((trim1500 T ≠ "" ∧ pyStartsWith "Topic not found" (trim1500 T) = false) →
      (safe_wikipedia_fetch topic wikiType (m + 1) o cache).cache (cacheKey wikiType topic)
        = .stored (trim1500 T)) := by
  have hs := safe_fetch_first_outcome_ok topic wikiType T true m o cache hc h0
  rw [attemptContent_true] at hs
  have hlen : (trim1500 T).toList.length ≤ 1500 := by
    rw [trim1500, toList_asString]
    exact le_trans (pyStrip_length_le _) (List.length_take_le _ _)
  constructor
  · rw [hs]
    exact ⟨rfl, rfl, hlen⟩
  · intro hu
    rw [hs, if_pos hu]
    simp [cache_content]

theorem successful_fetch_truncates_summary_witness :
    (emptyCache (cacheKey "en" "Gravity") = .absent ∧
      (fun _ : Nat => AttemptOutcome.ok true "Gravity is a force.") 0
        = .ok true "Gravity is a force." ∧
      (trim1500 "Gravity is a force." ≠ "" ∧
        pyStartsWith "Topic not found" (trim1500 "Gravity is a force.") = false)) ∧
    (((safe_wikipedia_fetch "Gravity" "en" (1 + 1)
          (fun _ => .ok true "Gravity is a force.") emptyCache).result
        = trim1500 "Gravity is a force." ∧
      trim1500 "Gravity is a force."
        = (pyStrip (("Gravity is a force.").toList.take 1500)).asString ∧
      (trim1500 "Gravity is a force.").toList.length ≤ 1500) ∧
    (safe_wikipedia_fetch "Gravity" "en" (1 + 1)
        (fun _ => .ok true "Gravity is a force.") emptyCache).cache
        (cacheKey "en" "Gravity") = .stored (trim1500 "Gravity is a force.")) :=
  ⟨⟨rfl, rfl, by decide, by decide⟩,
    ⟨(successful_fetch_truncates_summary "Gravity" "en" "Gravity is a force." 1
        (fun _ => .ok true "Gravity is a force.") emptyCache rfl rfl).1,
      (successful_fetch_truncates_summary "Gravity" "en" "Gravity is a force." 1
        (fun _ => .ok true "Gravity is a force.") emptyCache rfl rfl).2
        ⟨by decide, by decide⟩⟩⟩

/-- C10.  Reading the cache is total and degrades safely: a missing,
unreadable or malformed cache file reads as the empty string (the embedding
of `_get_cached_content` is a total function — the source swallows every
exception with `except: pass`), and `_safe_wikipedia_fetch` treats that
empty read as a cache miss, proceeding with the full fresh-fetch retry
loop for every topic and source whose key maps to that file. -/
theorem unreadable_cache_degrades_to_fresh_fetch (cache : CacheMap) (key : String)
    (h : cache key = .absent ∨ cache key = .corrupt) :
    get_cached_content cache key = "" ∧
    ∀ topic wikiType maxRetries outcomes, cacheKey wikiType topic = key →
      safe_wikipedia_fetch topic wikiType maxRetries outcomes cache
        = fetchLoop wikiType topic maxRetries outcomes cache maxRetries 0 := by
  have hget : get_cached_content cache key = "" := by
    rcases h with h | h <;> simp [get_cached_content, h]
  refine ⟨hget, ?_⟩
  intro topic w m o hk
  simp only [safe_wikipedia_fetch, hk, hget]
  rw [if_neg (by simp)]

theorem unreadable_cache_degrades_to_fresh_fetch_witness :
    ((fun _ : String => CacheFile.corrupt) "simple_gravity" = .absent ∨
      (fun _ : String => CacheFile.corrupt) "simple_gravity" = .corrupt) ∧
    (get_cached_content (fun _ => CacheFile.corrupt) "simple_gravity" = "" ∧
      ∀ topic wikiType maxRetries outcomes, cacheKey wikiType topic = "simple_gravity" →
        safe_wikipedia_fetch topic wikiType maxRetries outcomes (fun _ => CacheFile.corrupt)
          = fetchLoop wikiType topic maxRetries outcomes (fun _ => CacheFile.corrupt)
              maxRetries 0) :=
  ⟨Or.inr rfl,
    unreadable_cache_degrades_to_fresh_fetch (fun _ => CacheFile.corrupt) "simple_gravity"
      (Or.inr rfl)⟩

/-! ## Readability scorer claim C7 and jargon definer claim C8 -/

/-- C7.  The readability scorer fails explicitly: empty or whitespace-only
input yields the validation error string before any subprocess is started
(never a silent grade of 0), and for scoreable input every failure of the
external computation — timeout, non-zero exit, other exception, or empty
output — is surfaced as an explicit error result, while a successful
computation's output is passed through without masking. -/
theorem readability_scorer_fails_explicitly (text : String) (outcome : ScoreOutcome) :
    ((text = "" ∨ pyStripStr text = "") →
      get_readability_scores text outcome = "Error: No text provided for readability check") ∧
    (¬(text = "" ∨ pyStripStr text = "") →
      (get_readability_scores text .timeout = "Error: Readability check timed out") ∧
      (∀ es, get_readability_scores text (.calledProcessError es)
        = "Error calculating readability: "
          ++ (if es ≠ "" then pyStripStr es else "Unknown error")) ∧
      (∀ m, get_readability_scores text (.exc m) = "Error checking readability: " ++ m) ∧
      (∀ stdout, pyStripStr stdout = "" →
        get_readability_scores text (.completed stdout)
          = "Error: No readability score calculated") ∧
      (∀ stdout, pyStripStr stdout ≠ "" →
        get_readability_scores text (.completed stdout) = pyStripStr stdout)) := by
  constructor
  · intro h
    simp only [get_readability_scores]
    rw [if_pos h]
  · intro h
    refine ⟨?_, fun es => ?_, fun m => ?_, fun stdout hout => ?_, fun stdout hout => ?_⟩
    · simp only [get_readability_scores]
      rw [if_neg h]
    · simp only [get_readability_scores]
      rw [if_neg h]
    · simp only [get_readability_scores]
      rw [if_neg h]
    · simp only [get_readability_scores]
      rw [if_neg h]
      simp [hout]
    · simp only [get_readability_scores]
      rw [if_neg h]
      simp [hout]

theorem readability_scorer_fails_explicitly_witness :
    (¬("Hi." = "" ∨ pyStripStr "Hi." = "")) ∧
    get_readability_scores "Hi." .timeout = "Error: Readability check timed out" :=
  ⟨by decide, ((readability_scorer_fails_explicitly "Hi." .timeout).2 (by decide)).1⟩

/-- C8.  The jargon definer rejects an empty or whitespace-only term with a
validation error and no generative call; with a configured backend it
issues exactly one generative call for every non-empty term, returns the
trimmed output when the backend produced one, and returns the
distinguishable "Could not generate definition" result — rather than
raising — when the backend yielded no usable output.  (An unconfigured
backend is reported without any call.) -/
theorem jargon_definer_contract (term : String) (configured : Bool) (outcome : LMOutcome) :
    ((term = "" ∨ pyStripStr term = "") →
      define_jargon_term term configured outcome
        = ("Error: No term provided for definition", 0)) ∧
    (¬(term = "" ∨ pyStripStr term = "") →
      ((define_jargon_term term true outcome).2 = 1) ∧
      (∀ s, s ≠ "" → define_jargon_term term true (.value s) = (pyStripStr s, 1)) ∧
      (define_jargon_term term true (.value "")
        = ("Could not generate definition for '" ++ term ++ "'", 1)) ∧
      (∀ m, define_jargon_term term true (.raises m)
        = ("Error defining term '" ++ term ++ "': " ++ m, 1)) ∧
      (define_jargon_term term false outcome
        = ("Error: DSPy Language Model not configured. Cannot define jargon.", 0))) := by
  constructor
  · intro h
    simp only [define_jargon_term]
    rw [if_pos h]
  · intro h
    refine ⟨?_, fun s hs => ?_, ?_, fun m => ?_, ?_⟩
    · simp only [define_jargon_term]
      rw [if_neg h, if_neg (by simp)]
      cases outcome <;> simp
    · simp only [define_jargon_term]
      rw [if_neg h, if_neg (by simp)]
      simp [hs]
    · simp only [define_jargon_term]
      rw [if_neg h, if_neg (by simp)]
      simp
    · simp only [define_jargon_term]
      rw [if_neg h, if_neg (by simp)]
    · simp only [define_jargon_term]
      rw [if_neg h]
      simp

theorem jargon_definer_contract_witness :
    (¬("photosynthesis" = "" ∨ pyStripStr "photosynthesis" = "")) ∧
    " Food making. " ≠ "" ∧
    define_jargon_term "photosynthesis" true (.value " Food making. ")
      = (pyStripStr " Food making. ", 1) :=
  ⟨by decide, by decide,
    ((jargon_definer_contract "photosynthesis" true (.value " Food making. ")).2
        (by decide)).2.1 " Food making. " (by decide)⟩

/-! ## Normalizer claim C6

The normalizer is not idempotent: removing a bracketed citation can reveal
a new one (`"a[1[2]]b"` becomes `"a[1]b"`, and only a second pass removes
the revealed `[1]`).  Idempotence does hold on inputs free of the `[` and
`(` trigger characters, where the pipeline reduces to whitespace
normalisation; the lemmas below establish that whitespace collapsing and
stripping are idempotent.
-/

/-- C6 counterexample.  `preprocess_text` succeeds on `"a[1[2]]b"` (the
result `"a[1]b"` is not an error string), yet a second application changes
the result again: removing the inner citation `[2]` reveals `[1]`, which
only the second pass removes.  The normalizer is not idempotent. -/
theorem preprocess_not_idempotent_counterexample :
    preprocess_text "a[1[2]]b" = "a[1]b" ∧
    pyStartsWith "Error" (preprocess_text "a[1[2]]b") = false ∧
    preprocess_text (preprocess_text "a[1[2]]b") ≠ preprocess_text "a[1[2]]b" := by
  refine ⟨by decide, by decide, by decide⟩

theorem removeCitesF_id : ∀ (n : Nat) (l : List Char), '[' ∉ l → removeCitesF n l = l := by
  intro n
  induction n with
  | zero => intro l _; rfl
  | succ n ih =>
    intro l h
    cases l with
    | nil => rfl
    | cons c cs =>
      have hc : ¬(c = '[') := fun hc => h (hc ▸ List.mem_cons_self c cs)
      simp only [removeCitesF]
      rw [if_neg hc, ih cs (fun hm => h (List.mem_cons_of_mem c hm))]

theorem removeEditF_id : ∀ (n : Nat) (l : List Char), '[' ∉ l → removeEditF n l = l := by
  intro n
  induction n with
  | zero => intro l _; rfl
  | succ n ih =>
    intro l h
    cases l with
    | nil => rfl
    | cons c cs =>
      have hc : ¬(c = '[') := fun hc => h (hc ▸ List.mem_cons_self c cs)
      simp only [removeEditF]
      rw [if_neg (by simp [hc]), ih cs (fun hm => h (List.mem_cons_of_mem c hm))]

theorem tryListen_none (l : List Char) (h : '(' ∉ l) : tryListen l = none := by
  unfold tryListen
  cases hd : l.dropWhile pyIsSpace with
  | nil => rfl
  | cons c cs =>
    have hc : ¬(c = '(') := by
      intro hc
      apply h
      refine (List.dropWhile_suffix pyIsSpace).mem ?_
      rw [hd, hc]
      exact List.mem_cons_self _ _
    split
    · rename_i rest heq
      injection heq with h1 h2
      exact absurd h1 hc
    · rfl

theorem removeListenF_id : ∀ (n : Nat) (l : List Char), '(' ∉ l → removeListenF n l = l := by
  intro n
  induction n with
  | zero => intro l _; rfl
  | succ n ih =>
    intro l h
    cases l with
    | nil => rfl
    | cons c cs =>
      simp only [removeListenF, tryListen_none (c :: cs) h]
      rw [ih cs (fun hm => h (List.mem_cons_of_mem c hm))]

theorem tryCiteParen_none (l : List Char) (h : '(' ∉ l) : tryCiteParen l = none := by
  unfold tryCiteParen
  cases hd : l.dropWhile pyIsSpace with
  | nil => rfl
  | cons c cs =>
    have hc : ¬(c = '(') := by
      intro hc
      apply h
      refine (List.dropWhile_suffix pyIsSpace).mem ?_
      rw [hd, hc]
      exact List.mem_cons_self _ _
    dsimp only
    split
    · rename_i body heq
      injection heq with h1 h2
      exact absurd h1 hc
    · rfl

theorem removeCiteParenF_id : ∀ (n : Nat) (l : List Char), '(' ∉ l → removeCiteParenF n l = l := by
  intro n
  induction n with
  | zero => intro l _; rfl
  | succ n ih =>
    intro l h
    cases l with
    | nil => rfl
    | cons c cs =>
      simp only [removeCiteParenF, tryCiteParen_none (c :: cs) h]
      rw [ih cs (fun hm => h (List.mem_cons_of_mem c hm))]

theorem tryEmptyParen_none (l : List Char) (h : '(' ∉ l) : tryEmptyParen l = none := by
  unfold tryEmptyParen
  cases l with
  | nil => rfl
  | cons c cs =>
    have hc : ¬(c = '(') := fun hc => h (hc ▸ List.mem_cons_self c cs)
    split
    · rename_i body heq
      injection heq with h1 h2
      exact absurd h1 hc
    · rfl

theorem removeEmptyParenF_id : ∀ (n : Nat) (l : List Char), '(' ∉ l → removeEmptyParenF n l = l := by
  intro n
  induction n with
  | zero => intro l _; rfl
  | succ n ih =>
    intro l h
    cases l with
    | nil => rfl
    | cons c cs =>
      simp only [removeEmptyParenF, tryEmptyParen_none (c :: cs) h]
      rw [ih cs (fun hm => h (List.mem_cons_of_mem c hm))]

theorem stripSourceTag_id (l : List Char) (h : '[' ∉ l) : stripSourceTag l = l := by
  have hA : ¬("[Simple Wikipedia]".toList.isPrefixOf l = true) := by
    intro hq
    exact h ((List.isPrefixOf_iff_prefix.mp hq).mem (by decide))
  have hB : ¬("[Wikipedia]".toList.isPrefixOf l = true) := by
    intro hq
    exact h ((List.isPrefixOf_iff_prefix.mp hq).mem (by decide))
  unfold stripSourceTag
  rw [if_neg hA, if_neg hB]

theorem mem_of_mem_pyStrip (c : Char) (l : List Char) (h : c ∈ pyStrip l) : c ∈ l := by
  unfold pyStrip stripTrail at h
  rw [List.mem_reverse] at h
  have h2 := (List.dropWhile_suffix pyIsSpace).mem h
  rw [List.mem_reverse] at h2
  exact (List.dropWhile_suffix pyIsSpace).mem h2

theorem collapseWs_singleton (a : Char) : collapseWs [a] = [normWsChar a] := rfl

theorem collapseWs_cons₂ (a b : Char) (cs : List Char) :
    collapseWs (a :: b :: cs) =
      if (pyIsSpace a && pyIsSpace b) = true then collapseWs (b :: cs)
      else normWsChar a :: collapseWs (b :: cs) := rfl

theorem mem_of_mem_collapseWs (c : Char) (l : List Char) (h : c ∈ collapseWs l) :
    c ∈ l ∨ c = ' ' := by
  induction l with
  | nil => simp [collapseWs] at h
  | cons a cs ih =>
    cases cs with
    | nil =>
      simp [collapseWs] at h
      subst h
      by_cases ha : pyIsSpace a = true
      · right
        rw [normWsChar, if_pos ha]
      · left
        rw [normWsChar, if_neg ha]
        exact List.mem_cons_self _ _
    | cons b cs' =>
      simp only [collapseWs] at h
      split at h
      · rcases ih h with h' | h'
        · exact Or.inl (List.mem_cons_of_mem a h')
        · exact Or.inr h'
      · rcases List.mem_cons.mp h with h' | h'
        · subst h'
          by_cases ha : pyIsSpace a = true
          · right
            rw [normWsChar, if_pos ha]
          · left
            rw [normWsChar, if_neg ha]
            exact List.mem_cons_self _ _
        · rcases ih h' with h'' | h''
          · exact Or.inl (List.mem_cons_of_mem a h'')
          · exact Or.inr h''

theorem collapseWs_ws (l : List Char) :
    ∀ c ∈ collapseWs l, pyIsSpace c = true → c = ' ' := by
  induction l with
  | nil => simp [collapseWs]
  | cons a cs ih =>
    cases cs with
    | nil =>
      intro c hc hws
      simp [collapseWs] at hc
      subst hc
      by_cases ha : pyIsSpace a = true
      · rw [normWsChar, if_pos ha]
      · rw [normWsChar, if_neg ha] at hws
        rw [normWsChar, if_neg ha]
        exact absurd hws (by simpa using ha)
    | cons b cs' =>
      intro c hc hws
      simp only [collapseWs] at hc
      split at hc
      · exact ih c hc hws
      · rcases List.mem_cons.mp hc with hc' | hc'
        · subst hc'
          by_cases ha : pyIsSpace a = true
          · rw [normWsChar, if_pos ha]
          · rw [normWsChar, if_neg ha] at hws
            rw [normWsChar, if_neg ha]
            exact absurd hws (by simpa using ha)
        · exact ih c hc' hws

theorem collapseWs_head_cons (b : Char) (cs : List Char) (hb : pyIsSpace b = false) :
    (collapseWs (b :: cs)).head? = some b := by
  cases cs with
  | nil => simp [collapseWs, normWsChar, hb]
  | cons d ds => simp [collapseWs, normWsChar, hb]

theorem collapseWs_chain (l : List Char) :
    List.Chain' (fun a b => ¬(pyIsSpace a = true ∧ pyIsSpace b = true)) (collapseWs l) := by
  induction l with
  | nil => simp [collapseWs]
  | cons a cs ih =>
    cases cs with
    | nil => simp [collapseWs]
    | cons b cs' =>
      rw [collapseWs_cons₂]
      split
      · exact ih
      · rename_i hcond
        rw [List.chain'_cons']
        refine ⟨?_, ih⟩
        intro y hy
        by_cases hb : pyIsSpace b = true
        · have ha : pyIsSpace a = false := by
            cases hws : pyIsSpace a
            · rfl
            · exact absurd (by simp [hws, hb]) hcond
          intro hcontra
          rw [normWsChar, if_neg (by simp [ha])] at hcontra
          rw [ha] at hcontra
          exact Bool.false_ne_true hcontra.1
        · rw [collapseWs_head_cons b cs' (by simpa using hb)] at hy
          simp at hy
          subst hy
          intro hcontra
          exact absurd hcontra.2 (by simpa using hb)

theorem collapseWs_fix (l : List Char)
    (hws : ∀ c ∈ l, pyIsSpace c = true → c = ' ')
    (hch : List.Chain' (fun a b => ¬(pyIsSpace a = true ∧ pyIsSpace b = true)) l) :
    collapseWs l = l := by
  induction l with
  | nil => rfl
  | cons a cs ih =>
    cases cs with
    | nil =>
      show [normWsChar a] = [a]
      by_cases ha : pyIsSpace a = true
      · rw [normWsChar, if_pos ha, hws a (List.mem_cons_self _ _) ha]
      · rw [normWsChar, if_neg ha]
    | cons b cs' =>
      have hcond : ¬((pyIsSpace a && pyIsSpace b) = true) := by
        rw [Bool.and_eq_true]
        exact (List.chain'_cons.mp hch).1
      rw [collapseWs_cons₂, if_neg hcond]
      have hhead : normWsChar a = a := by
        by_cases ha : pyIsSpace a = true
        · rw [normWsChar, if_pos ha]
          exact (hws a (List.mem_cons_self _ _) ha).symm
        · rw [normWsChar, if_neg ha]
      rw [hhead,
        ih (fun c hc hws' => hws c (List.mem_cons_of_mem a hc) hws')
          (List.chain'_cons.mp hch).2]

theorem chain'_dropWhile (R : Char → Char → Prop) (p : Char → Bool) (l : List Char)
    (h : List.Chain' R l) : List.Chain' R (l.dropWhile p) := by
  induction l with
  | nil => exact h
  | cons a cs ih =>
    rw [List.dropWhile_cons]
    split
    · exact ih h.tail
    · exact h

theorem chain'_noadj_reverse (l : List Char)
    (h : List.Chain' (fun a b => ¬(pyIsSpace a = true ∧ pyIsSpace b = true)) l) :
    List.Chain' (fun a b => ¬(pyIsSpace a = true ∧ pyIsSpace b = true)) l.reverse := by
  rw [List.chain'_reverse]
  exact List.Chain'.imp (fun a b hab hx => hab ⟨hx.2, hx.1⟩) h

theorem head?_dropWhile_not (p : Char → Bool) (l : List Char) :
    ∀ c, (l.dropWhile p).head? = some c → p c = false := by
  induction l with
  | nil => intro c h; simp at h
  | cons a cs ih =>
    intro c h
    rw [List.dropWhile_cons] at h
    split at h
    · exact ih c h
    · rename_i ha
      simp at h
      subst h
      simpa using ha

theorem dropWhile_eq_self_of_head (p : Char → Bool) (l : List Char)
    (h : ∀ c, l.head? = some c → p c = false) : l.dropWhile p = l := by
  cases l with
  | nil => rfl
  | cons a cs =>
    rw [List.dropWhile_cons, if_neg (by simp [h a rfl])]

theorem pyStrip_eq_self (l : List Char)
    (hh : ∀ c, l.head? = some c → pyIsSpace c = false)
    (hl : ∀ c, l.getLast? = some c → pyIsSpace c = false) :
    pyStrip l = l := by
  unfold pyStrip stripTrail
  rw [dropWhile_eq_self_of_head pyIsSpace l hh]
  rw [dropWhile_eq_self_of_head pyIsSpace l.reverse ?hrev]
  · exact List.reverse_reverse l
  case hrev =>
    intro c hc
    rw [List.head?_reverse] at hc
    exact hl c hc

theorem stripTrail_prefix (l : List Char) : stripTrail l <+: l := by
  have h := List.reverse_prefix.mpr
    (List.dropWhile_suffix pyIsSpace : _ <:+ l.reverse)
  rwa [List.reverse_reverse] at h

theorem head?_of_prefix (l₁ l₂ : List Char) (c : Char) (h : l₁ <+: l₂)
    (hc : l₁.head? = some c) : l₂.head? = some c := by
  obtain ⟨t, rfl⟩ := h
  cases l₁ with
  | nil => simp at hc
  | cons a as =>
    simp at hc
    simpa using hc

theorem getLast?_reverse' (l : List Char) : l.reverse.getLast? = l.head? := by
  rw [← List.head?_reverse, List.reverse_reverse]

/-- C6 (amended).  The normalizer is idempotent on every input on which it
succeeds that contains neither `[` nor `(` — the two characters that can
trigger artifact removal, whose nesting breaks idempotence (see the
counterexample): on such inputs the pipeline reduces to whitespace
collapsing and stripping, which are idempotent. -/
theorem preprocess_idempotent_on_bracket_free_input (s : String)
    (hb : '[' ∉ s.toList) (hp : '(' ∉ s.toList)
    (h0 : s ≠ "") (h1 : (cleanPipeline s.toList).asString ≠ "") :
    preprocess_text (preprocess_text s) = preprocess_text s := by
  have stageid : ∀ l : List Char, '[' ∉ l → '(' ∉ l →
      cleanPipeline l = pyStrip (collapseWs l) := by
    intro l hb' hp'
    unfold cleanPipeline removeCites removeEdit removeListen removeCiteParen removeEmptyParen
    rw [removeCitesF_id _ _ hb', removeEditF_id _ _ hb', removeListenF_id _ _ hp',
      removeCiteParenF_id _ _ hp', removeEmptyParenF_id _ _ hp', stripSourceTag_id _ hb']
  have hu : cleanPipeline s.toList = pyStrip (collapseWs s.toList) := stageid _ hb hp
  have hwsT : ∀ c ∈ pyStrip (collapseWs s.toList), pyIsSpace c = true → c = ' ' :=
    fun c hc hws => collapseWs_ws s.toList c (mem_of_mem_pyStrip c _ hc) hws
  have hchT : List.Chain' (fun a b => ¬(pyIsSpace a = true ∧ pyIsSpace b = true))
      (pyStrip (collapseWs s.toList)) :=
    chain'_noadj_reverse _ (chain'_dropWhile _ pyIsSpace _
      (chain'_noadj_reverse _ (chain'_dropWhile _ pyIsSpace _ (collapseWs_chain s.toList))))
  have hbT : '[' ∉ pyStrip (collapseWs s.toList) := by
    intro hmem
    rcases mem_of_mem_collapseWs '[' s.toList (mem_of_mem_pyStrip _ _ hmem) with h' | h'
    · exact hb h'
    · exact absurd h' (by decide)
  have hpT : '(' ∉ pyStrip (collapseWs s.toList) := by
    intro hmem
    rcases mem_of_mem_collapseWs '(' s.toList (mem_of_mem_pyStrip _ _ hmem) with h' | h'
    · exact hp h'
    · exact absurd h' (by decide)
  have hh : ∀ c, (pyStrip (collapseWs s.toList)).head? = some c → pyIsSpace c = false := by
    intro c hc
    have hpre := stripTrail_prefix ((collapseWs s.toList).dropWhile pyIsSpace)
    have hc2 := head?_of_prefix _ _ c hpre hc
    exact head?_dropWhile_not pyIsSpace _ c hc2
  have hl : ∀ c, (pyStrip (collapseWs s.toList)).getLast? = some c → pyIsSpace c = false := by
    intro c hc
    unfold pyStrip stripTrail at hc
    rw [getLast?_reverse'] at hc
    exact head?_dropWhile_not pyIsSpace _ c hc
  have hcfix : collapseWs (pyStrip (collapseWs s.toList)) = pyStrip (collapseWs s.toList) :=
    collapseWs_fix _ hwsT hchT
  have hsfix : pyStrip (pyStrip (collapseWs s.toList)) = pyStrip (collapseWs s.toList) :=
    pyStrip_eq_self _ hh hl
  have hct : cleanPipeline (pyStrip (collapseWs s.toList)) = pyStrip (collapseWs s.toList) := by
    rw [stageid _ hbT hpT, hcfix, hsfix]
  have hvalue : (cleanPipeline ((cleanPipeline s.toList).asString).toList).asString
      = (cleanPipeline s.toList).asString := by
    rw [toList_asString, hu, hct, ← hu]
  have hp1 : preprocess_text s = (cleanPipeline s.toList).asString := by
    unfold preprocess_text
    rw [if_neg h0]
    dsimp only
    rw [if_neg h1]
  rw [hp1]
  unfold preprocess_text
  rw [if_neg h1]
  dsimp only
  rw [hvalue, if_neg h1]

theorem preprocess_idempotent_on_bracket_free_input_witness :
    ('[' ∉ "hello  world".toList ∧ '(' ∉ "hello  world".toList ∧
      "hello  world" ≠ "" ∧ (cleanPipeline "hello  world".toList).asString ≠ "") ∧
    preprocess_text (preprocess_text "hello  world") = preprocess_text "hello  world" :=
  ⟨⟨by decide, by decide, by decide, by decide⟩,
    preprocess_idempotent_on_bracket_free_input "hello  world" (by decide) (by decide)
      (by decide) (by decide)⟩
